import Mathlib

/-!
Shallow embedding of the Tekton native helper programs
(`shared/ci_tools/c_src/ci_tool_launcher.c`, `ci_message_bus.c`,
`ci_message_bus_unix.c`) and proofs about their specified behaviour.

Machine integers are modelled as `Nat`/`Int` with explicit wrapping where it
matters; fallible C calls are modelled with `Option`/result codes mirroring the
source's return conventions.
-/

namespace CiToolLauncher

/-- `atoi`'s digit loop: accumulate decimal digits, stop at the first
non-digit. -/
def atoiDigits : List Char → Nat → Nat
  | [], acc => acc
  | c :: cs, acc =>
    if c.isDigit then atoiDigits cs (acc * 10 + (c.toNat - '0'.toNat))
    else acc

/-- Model of C `atoi`: optional leading whitespace, optional sign, then a run
of decimal digits (overflow ignored; the launcher only compares the result
with 0). -/
def atoi (s : String) : Int :=
  let cs := s.toList.dropWhile (fun c => c = ' ' ∨ c = '\t' ∨ c = '\n')
  match cs with
  | '-' :: rest => -(atoiDigits rest 0 : Int)
  | '+' :: rest => (atoiDigits rest 0 : Int)
  | _ => (atoiDigits cs 0 : Int)

/-- `MAX_ARGS` from the source (`#define MAX_ARGS 64`). -/
def MAX_ARGS : Nat := 64

/-- The `LaunchConfig` struct of `ci_tool_launcher.c`.  `tool_name` is a
nullable `char *` (hence `Option`); `args` here holds only the tokens captured
after `--args` (the C field is rewritten at the end of `parse_args` to the
exec vector, modelled separately by `final_args`). -/
structure LaunchConfig where
  tool_name : Option String
  executable : String
  args : List String
  port : Int
  socket_mode : Bool
deriving DecidableEq, Repr

/-- Accumulator state of `parse_args`' scanning loop, before the
`--executable` presence check. -/
structure ParseState where
  tool_name : Option String := none
  executable : Option String := none
  args : List String := []
  port : Int := 0
  socket_mode : Bool := false
deriving DecidableEq, Repr

/-- The argument-scanning loop of `parse_args` (ci_tool_launcher.c lines
60–76).  An option keyword consumes its value only when a further token
exists (`i + 1 < argc`); `--args` captures at most `MAX_ARGS - 1 = 63`
following tokens (`arg_count < MAX_ARGS - 1`) and ends the scan; unrecognized
tokens are skipped. -/
def parseLoop : List String → ParseState → ParseState
  | [], st => st
  | [t], st =>
    -- a trailing value-taking keyword fails its `i + 1 < argc` test and is
    -- skipped; a trailing `--args` captures an empty tail
    if t = "--args" then { st with args := [] } else st
  | t :: v :: rest, st =>
    if t = "--tool" then parseLoop rest { st with tool_name := some v }
    else if t = "--executable" then parseLoop rest { st with executable := some v }
    else if t = "--port" then
      parseLoop rest { st with port := atoi v, socket_mode := true }
    else if t = "--args" then { st with args := (v :: rest).take (MAX_ARGS - 1) }
    else parseLoop (v :: rest) st

/-- `parse_args` (ci_tool_launcher.c lines 45–93): scan the command line
(`argv[1..]`), then require `--executable`; a missing executable is
`exit(1)`, modelled as `none`. -/
def parse_args (argv : List String) : Option LaunchConfig :=
  let st := parseLoop argv {}
  match st.executable with
  | none => none
  | some exe =>
    some { tool_name := st.tool_name, executable := exe, args := st.args,
           port := st.port, socket_mode := st.socket_mode }

/-- The exec vector built at the end of `parse_args` (lines 83–90): the
executable as element 0, the captured `--args` tokens in order, and the
terminating NULL slot left by `calloc(arg_count + 2, ...)`. -/
def final_args (cfg : LaunchConfig) : List (Option String) :=
  some cfg.executable :: cfg.args.map some ++ [none]

end CiToolLauncher

namespace CiToolLauncher

/-- True of keywords that consume a following value token in `parse_args`. -/
def takesValue (t : String) : Bool :=
  t = "--tool" ∨ t = "--executable" ∨ t = "--port"

theorem parseLoop_nil (st : ParseState) : parseLoop [] st = st := by
  simp [parseLoop]

theorem parseLoop_args_nil (st : ParseState) :
    parseLoop ["--args"] st = { st with args := [] } := by
  simp [parseLoop]

theorem parseLoop_args_cons (v : String) (rest : List String) (st : ParseState) :
    parseLoop ("--args" :: v :: rest) st =
      { st with args := (v :: rest).take (MAX_ARGS - 1) } := by
  simp [parseLoop]

theorem parseLoop_tool (v : String) (rest : List String) (st : ParseState) :
    parseLoop ("--tool" :: v :: rest) st =
      parseLoop rest { st with tool_name := some v } := by
  simp [parseLoop]

theorem parseLoop_executable (v : String) (rest : List String) (st : ParseState) :
    parseLoop ("--executable" :: v :: rest) st =
      parseLoop rest { st with executable := some v } := by
  simp [parseLoop]

theorem parseLoop_port (v : String) (rest : List String) (st : ParseState) :
    parseLoop ("--port" :: v :: rest) st =
      parseLoop rest { st with port := atoi v, socket_mode := true } := by
  simp [parseLoop]

theorem parseLoop_skip (t v : String) (rest : List String) (st : ParseState)
    (h1 : t ≠ "--tool") (h2 : t ≠ "--executable") (h3 : t ≠ "--port")
    (h4 : t ≠ "--args") :
    parseLoop (t :: v :: rest) st = parseLoop (v :: rest) st := by
  rw [parseLoop]
  simp [h1, h2, h3, h4]

theorem parseLoop_single_skip (t : String) (st : ParseState)
    (h4 : t ≠ "--args") : parseLoop [t] st = st := by
  rw [parseLoop]
  simp [h4]

/-- Scanning reaches a `--args` token whenever no earlier token is `--args`
and the token just before it is not a value-taking keyword: the captured
argument list is then the first 63 tokens after `--args`. -/
theorem parseLoop_args_of_reached :
    ∀ (n : ℕ) (pre : List String), pre.length ≤ n →
      "--args" ∉ pre → (∀ l, pre.getLast? = some l → takesValue l = false) →
      ∀ (post : List String) (st : ParseState),
        (parseLoop (pre ++ "--args" :: post) st).args =
          post.take (MAX_ARGS - 1) := by
  intro n
  induction n with
  | zero =>
    intro pre hlen _ _ post st
    have hpre : pre = [] := List.length_eq_zero.mp (Nat.le_zero.mp hlen)
    subst hpre
    cases post with
    | nil => simp [parseLoop, MAX_ARGS]
    | cons v rest => simp [parseLoop_args_cons]
  | succ n ih =>
    intro pre hlen hmem hlast post st
    cases pre with
    | nil =>
      cases post with
      | nil => simp [parseLoop, MAX_ARGS]
      | cons v rest => simp [parseLoop_args_cons]
    | cons t pre' =>
      have ht_ne : t ≠ "--args" := fun h => hmem (h ▸ List.mem_cons_self t pre')
      cases pre' with
      | nil =>
        -- single leading token; it is not value-taking and not `--args`
        have htv : takesValue t = false := hlast t rfl
        have h1 : t ≠ "--tool" := by
          intro h; simp [takesValue, h] at htv
        have h2 : t ≠ "--executable" := by
          intro h; simp [takesValue, h] at htv
        have h3 : t ≠ "--port" := by
          intro h; simp [takesValue, h] at htv
        cases post with
        | nil =>
          rw [List.singleton_append, parseLoop_skip t "--args" [] st h1 h2 h3 ht_ne,
            parseLoop_args_nil]
          simp
        | cons v rest =>
          rw [List.singleton_append,
            parseLoop_skip t "--args" (v :: rest) st h1 h2 h3 ht_ne,
            parseLoop_args_cons]
      | cons u pre'' =>
        have hu_mem : "--args" ∉ u :: pre'' := fun h =>
          hmem (List.mem_cons_of_mem t h)
        have hlast' : ∀ l, (u :: pre'').getLast? = some l → takesValue l = false := by
          intro l hl
          apply hlast
          rw [List.getLast?_cons_cons] at *
          exact hl
        have hlen' : (u :: pre'').length ≤ n := by
          simpa using Nat.le_of_succ_le_succ hlen
        have hlenpre'' : pre''.length ≤ n := Nat.le_of_succ_le hlen'
        have hpre''_mem : "--args" ∉ pre'' := fun h =>
          hu_mem (List.mem_cons_of_mem u h)
        have hlast'' : pre'' ≠ [] →
            ∀ l, pre''.getLast? = some l → takesValue l = false := by
          intro hne l hl
          apply hlast'
          cases pre'' with
          | nil => exact absurd rfl hne
          | cons a b => rw [List.getLast?_cons_cons]; exact hl
        have htail : ∀ st', (parseLoop (pre'' ++ "--args" :: post) st').args =
            post.take (MAX_ARGS - 1) := by
          intro st'
          by_cases hp : pre'' = []
          · subst hp; exact ih [] (by simp) (by simp) (by simp) post st'
          · exact ih pre'' hlenpre'' hpre''_mem (hlast'' hp) post st'
        by_cases h1 : t = "--tool"
        · subst h1
          rw [List.cons_append, List.cons_append, parseLoop_tool]
          exact htail _
        · by_cases h2 : t = "--executable"
          · subst h2
            rw [List.cons_append, List.cons_append, parseLoop_executable]
            exact htail _
          · by_cases h3 : t = "--port"
            · subst h3
              rw [List.cons_append, List.cons_append, parseLoop_port]
              exact htail _
            · rw [List.cons_append, List.cons_append,
                parseLoop_skip t u (pre'' ++ "--args" :: post) st h1 h2 h3 ht_ne]
              exact ih (u :: pre'') hlen' hu_mem hlast' post _

end CiToolLauncher

namespace CiToolLauncher

/-- Abstract events of `main`'s startup sequence (ci_tool_launcher.c lines
136–203), in source order.  `forkChild` is the `fork()` call: the child's
environment snapshot is fixed at this point. -/
inductive StartEv where
  | installSignalHandlers
  | createPipes
  | forkChild
  | closeParentPipeEnds
  | setEnvPort (p : Int)      -- putenv("TEKTON_CI_PORT=<p>")
  | setEnvTool (name : String) -- putenv("TEKTON_CI_TOOL=<name>")
  | enterRelayMode
deriving DecidableEq, Repr

/-- The parent-side startup trace of `main` for a given config, read off the
source line by line: signal handlers (140–142), pipes (147), fork (153),
parent closes child-owned ends (186–188), then — only now — `putenv` of the
port (191–195) and of the tool name (197–201), then the mode branch (203). -/
def startupTrace (cfg : LaunchConfig) : List StartEv :=
  [StartEv.installSignalHandlers, StartEv.createPipes, StartEv.forkChild,
   StartEv.closeParentPipeEnds]
  ++ (if 0 < cfg.port then [StartEv.setEnvPort cfg.port] else [])
  ++ (match cfg.tool_name with
      | some n => [StartEv.setEnvTool n]
      | none => [])
  ++ [StartEv.enterRelayMode]

/-- Is an event one of the two `putenv` publications? -/
def isSetEnv : StartEv → Bool
  | StartEv.setEnvPort _ => true
  | StartEv.setEnvTool _ => true
  | _ => false

/-- The environment publications that happen strictly before the `fork()`
call: exactly these are visible in the child's initial environment
snapshot at exec time. -/
def envSetBeforeFork (tr : List StartEv) : List StartEv :=
  (tr.takeWhile (fun e => e ≠ StartEv.forkChild)).filter isSetEnv

/-- The connection retry loop of `main` (lines 217–224):
`int retries = 50; while (retries-- > 0) { if (connect(...) == 0) break;
usleep(100000); }`.  `succ i` tells whether the `i`-th `connect` attempt
(0-based) succeeds.  Returns `(connected, final value of retries, number of
connect attempts, number of 100 ms sleeps)`; the final `retries` value
reflects the C post-decrement (`-1` when the loop exhausts its budget). -/
def connectRetryLoop (succ : Nat → Bool) : Nat → Nat → Bool × Int × Nat × Nat
  | 0, i => (false, -1, i, i)
  | r + 1, i =>
    if succ i then (true, (r : Int), i + 1, i)
    else connectRetryLoop succ r (i + 1)

/-- What the socket-mode startup does after the retry loop (lines 226–235):
`if (retries <= 0) { fprintf(...); kill(child_pid, SIGTERM); exit(1); }`,
otherwise fall through to `socket_bridge`. -/
inductive SocketStart where
  | relay                     -- proceeds to socket_bridge
  | fatal                     -- kill(child, SIGTERM); exit(1)
deriving DecidableEq, Repr

/-- Socket-mode connection establishment: run the retry loop with the
initial budget of 50, then apply the `retries <= 0` check.  Also reports
whether the `connect` ever succeeded and whether the child was signaled. -/
def socketStart (succ : Nat → Bool) : SocketStart × Bool × Bool × Nat × Nat :=
  let (connected, finalRetries, attempts, sleeps) := connectRetryLoop succ 50 0
  if finalRetries ≤ 0 then (SocketStart.fatal, connected, true, attempts, sleeps)
  else (SocketStart.relay, connected, false, attempts, sleeps)

/-- glibc `WEXITSTATUS(status)`: `(status & 0xff00) >> 8`, i.e. the second
byte of the wait status. -/
def wexitstatus (status : Nat) : Nat := status / 256 % 256

/-- Wait status of a child that exited normally with `exit(code)`:
`code << 8` (low byte truncated as the kernel does). -/
def exitWaitStatus (code : Nat) : Nat := code % 256 * 256

/-- Wait status of a child terminated by signal `sig`: the signal number in
the low seven bits (core-dump flag irrelevant here). -/
def signalWaitStatus (sig : Nat) : Nat := sig % 128

/-- The distinguishable ways `main` (or `handle_signal`) reaches its exit,
with the data that determines the exit code. -/
inductive LaunchOutcome where
  | startupFailure                 -- any fatal pre-relay path: exit(1)
  | signalTeardown                 -- handle_signal (lines 35–42): exit(0)
  | normalWithStatus (st : Nat)    -- final waitpid (line 315) obtains status st
  | normalAlreadyReaped            -- final waitpid fails: child was already
                                   -- reaped by the in-loop WNOHANG poll, so
                                   -- `status` is read uninitialized
deriving DecidableEq, Repr

/-- The launcher's own exit code on each outcome: `exit(1)` on startup
failure, `exit(0)` from the signal handler, `return WEXITSTATUS(status)`
(line 317) when the final wait obtained a status, and an unspecified value
(`none`) when line 315's `waitpid` failed and `status` stayed
uninitialized. -/
def launcherExitCode : LaunchOutcome → Option Nat
  | LaunchOutcome.startupFailure => some 1
  | LaunchOutcome.signalTeardown => some 0
  | LaunchOutcome.normalWithStatus st => some (wexitstatus st)
  | LaunchOutcome.normalAlreadyReaped => none

/-- Exit paths of `main` reachable after the child has been forked. -/
inductive ExitPath where
  | signalTeardown       -- SIGTERM/SIGINT received: handle_signal
  | socketCreateFailure  -- socket() fails (lines 205–209): exit(1)
  | connectTimeout       -- retries exhausted (lines 226–230): kill + exit(1)
  | socketRelayDone      -- socket_bridge returned; fall-through teardown
  | stdioStdoutEof       -- stdio loop broke on child-stdout EOF (line 287)
  | stdioSelectError     -- stdio loop broke on a non-EINTR select error
  | stdioChildExitPoll   -- stdio loop broke because the WNOHANG poll
                         -- (line 301) reaped the exited child
deriving DecidableEq, Repr, Fintype

/-- Process-lifecycle events on a teardown path. -/
inductive TeardownEv where
  | killChild        -- kill(child_pid, SIGTERM)
  | reapBlocking     -- a blocking waitpid(child, ..., 0) that succeeds
  | reapPoll         -- the in-loop waitpid(child, ..., WNOHANG) returning > 0
  | reapFailedFinal  -- the final waitpid failing (child already reaped)
  | exitProcess      -- the process exits
deriving DecidableEq, Repr

/-- The sequence of process-lifecycle events on each post-fork exit path,
read off the source: `handle_signal` does kill + blocking waitpid + exit(0)
(lines 35–42); a socket() failure exits immediately (lines 205–209); the
connect timeout kills the child and exits without any wait (lines 226–230);
every relay-loop exit falls through to the final blocking waitpid (line
315), which succeeds unless the in-loop WNOHANG poll already reaped the
child, in which case it fails. -/
def teardownTrace : ExitPath → List TeardownEv
  | ExitPath.signalTeardown =>
      [TeardownEv.killChild, TeardownEv.reapBlocking, TeardownEv.exitProcess]
  | ExitPath.socketCreateFailure => [TeardownEv.exitProcess]
  | ExitPath.connectTimeout => [TeardownEv.killChild, TeardownEv.exitProcess]
  | ExitPath.socketRelayDone => [TeardownEv.reapBlocking, TeardownEv.exitProcess]
  | ExitPath.stdioStdoutEof => [TeardownEv.reapBlocking, TeardownEv.exitProcess]
  | ExitPath.stdioSelectError => [TeardownEv.reapBlocking, TeardownEv.exitProcess]
  | ExitPath.stdioChildExitPoll =>
      [TeardownEv.reapPoll, TeardownEv.reapFailedFinal, TeardownEv.exitProcess]

/-- Number of successful reaps (blocking or WNOHANG) on an exit path. -/
def successfulReaps (p : ExitPath) : Nat :=
  ((teardownTrace p).filter
    (fun e => e = TeardownEv.reapBlocking ∨ e = TeardownEv.reapPoll)).length

/-- `fork()` is called exactly once, before any mode branch, on every path
(line 153): each post-fork exit path sees exactly one child. -/
def childrenCreated : ExitPath → Nat := fun _ => 1

end CiToolLauncher

namespace CiToolLauncher

/-- Readiness events delivered to the stdio relay loop (lines 251–305), one
per descriptor reported ready by `select` plus the per-iteration
`waitpid(..., WNOHANG)` poll.  `stdinData b` is a `read` on the launcher's
own stdin returning the chunk `b` (`n > 0`); `stdinEof` is that `read`
returning `<= 0`; likewise for the child's stdout and stderr pipes.
`selectError` is a non-EINTR `select` failure (EINTR retries are invisible
here: the C loop `continue`s without touching any state). -/
inductive RelayEv where
  | stdinData (b : List Nat)
  | stdinEof
  | outData (b : List Nat)
  | outEof
  | errData (b : List Nat)
  | errEof
  | childExited
  | selectError
deriving DecidableEq, Repr

/-- Parent-side state of the stdio relay loop.  `stdinOpen` models
`stdin_pipe[1] >= 0`; `stdinCloses` counts the `close` calls that actually
close the child's stdin write-end (a later `close(-1)` fails with EBADF and
closes nothing); the three lists are the bytes written so far to the child's
stdin, the launcher's stdout and the launcher's stderr. -/
structure RelayState where
  stdinOpen : Bool
  stdinCloses : Nat
  toChild : List Nat
  toOut : List Nat
  toErr : List Nat
deriving DecidableEq, Repr

/-- Loop state on entry (stdin_pipe[1] valid, nothing relayed yet). -/
def relayInit : RelayState :=
  { stdinOpen := true, stdinCloses := 0, toChild := [], toOut := [], toErr := [] }

/-- One readiness event processed by the loop body; the `Bool` is whether the
loop `break`s.  Mirrors lines 266–304: own-stdin data is written to the
child's stdin only while `stdin_pipe[1] >= 0`; own-stdin EOF closes that end
(once; afterwards `stdin_pipe[1]` is `-1` and `close(-1)` closes nothing)
and does not break; child-stdout data goes to own stdout; child-stdout EOF
breaks; child-stderr data goes to own stderr; child-stderr EOF does nothing
(only `n > 0` is handled); a positive WNOHANG poll breaks; a non-EINTR
`select` error breaks. -/
def relayStep (s : RelayState) : RelayEv → RelayState × Bool
  | RelayEv.stdinData b =>
      ({ s with toChild := s.toChild ++ (if s.stdinOpen then b else []) }, false)
  | RelayEv.stdinEof =>
      ({ s with stdinOpen := false,
                stdinCloses := s.stdinCloses + (if s.stdinOpen then 1 else 0) },
       false)
  | RelayEv.outData b => ({ s with toOut := s.toOut ++ b }, false)
  | RelayEv.outEof => (s, true)
  | RelayEv.errData b => ({ s with toErr := s.toErr ++ b }, false)
  | RelayEv.errEof => (s, false)
  | RelayEv.childExited => (s, true)
  | RelayEv.selectError => (s, true)

/-- Run the relay loop over a stream of readiness events; returns the final
state and the list of events the loop actually consumed (up to and including
the first breaking event). -/
def relayRun (s : RelayState) : List RelayEv → RelayState × List RelayEv
  | [] => (s, [])
  | e :: es =>
    let (s', halt) := relayStep s e
    if halt then (s', [e])
    else
      let (s'', pr) := relayRun s' es
      (s'', e :: pr)

/-- The own-stdin chunks carried by an event list, concatenated. -/
def stdinBytes (evs : List RelayEv) : List Nat :=
  (evs.filterMap (fun e => match e with
    | RelayEv.stdinData b => some b
    | _ => none)).flatten

/-- The child-stdout chunks carried by an event list, concatenated. -/
def outBytes (evs : List RelayEv) : List Nat :=
  (evs.filterMap (fun e => match e with
    | RelayEv.outData b => some b
    | _ => none)).flatten

/-- No `stdinData` event occurs in the list. -/
def noStdinData : List RelayEv → Bool
  | [] => true
  | RelayEv.stdinData _ :: _ => false
  | _ :: es => noStdinData es

/-- A physically possible own-stdin stream: once end-of-stream is reported,
no further data chunk is delivered on it (repeated EOF reports are allowed —
an fd at EOF stays readable). -/
def stdinWf : List RelayEv → Bool
  | [] => true
  | RelayEv.stdinEof :: es => noStdinData es
  | _ :: es => stdinWf es

end CiToolLauncher


namespace CiToolLauncher

/-- The post-EOF loop state: child's stdin write-end closed, one close
performed. -/
def afterEofState (s : RelayState) : RelayState :=
  { s with
    stdinOpen := false,
    stdinCloses := s.stdinCloses + (if s.stdinOpen then 1 else 0) }

@[simp]
theorem stdinBytes_nil : stdinBytes [] = [] := rfl

@[simp]
theorem outBytes_nil : outBytes [] = [] := rfl

theorem stdinBytes_cons (e : RelayEv) (evs : List RelayEv) :
    stdinBytes (e :: evs) =
      (match e with | RelayEv.stdinData b => b | _ => []) ++ stdinBytes evs := by
  cases e <;> simp [stdinBytes]

theorem outBytes_cons (e : RelayEv) (evs : List RelayEv) :
    outBytes (e :: evs) =
      (match e with | RelayEv.outData b => b | _ => []) ++ outBytes evs := by
  cases e <;> simp [outBytes]

theorem relayStep_stdinEof (s : RelayState) :
    relayStep s RelayEv.stdinEof = (afterEofState s, false) := rfl

/-- Once the child's stdin write-end is closed, no later event reopens it,
writes to it, or closes it again. -/
theorem relayRun_closed_frame :
    ∀ (evs : List RelayEv) (s : RelayState), s.stdinOpen = false →
      (relayRun s evs).1.toChild = s.toChild
      ∧ (relayRun s evs).1.stdinCloses = s.stdinCloses
      ∧ (relayRun s evs).1.stdinOpen = false := by
  intro evs
  induction evs with
  | nil => intro s h; simp [relayRun, h]
  | cons e es ih =>
    intro s h
    cases e with
    | stdinData b =>
      have h' := ih { s with
        toChild := s.toChild ++ (if s.stdinOpen then b else []) } (by simp [h])
      simp [h] at h'
      simpa [relayRun, relayStep, h] using h'
    | stdinEof =>
      have h' := ih (afterEofState s) (by simp [afterEofState])
      simp [afterEofState, h] at h'
      simpa [relayRun, relayStep_stdinEof, afterEofState, h] using h'
    | outData b =>
      have h' := ih { s with toOut := s.toOut ++ b } (by simp [h])
      simpa [relayRun, relayStep, h] using h'
    | outEof => simp [relayRun, relayStep, h]
    | errData b =>
      have h' := ih { s with toErr := s.toErr ++ b } (by simp [h])
      simpa [relayRun, relayStep, h] using h'
    | errEof =>
      have h' := ih s h
      simpa [relayRun, relayStep, h] using h'
    | childExited => simp [relayRun, relayStep, h]
    | selectError => simp [relayRun, relayStep, h]

/-- If a tail of the event stream carries no own-stdin data, the loop's
consumed prefix of it carries none either. -/
theorem relayRun_stdinBytes_of_noData :
    ∀ (evs : List RelayEv) (s : RelayState), noStdinData evs = true →
      stdinBytes (relayRun s evs).2 = [] := by
  intro evs
  induction evs with
  | nil => intro s _; simp [relayRun]
  | cons e es ih =>
    intro s h
    cases e with
    | stdinData b => simp [noStdinData] at h
    | stdinEof =>
      have hes : noStdinData es = true := by simpa [noStdinData] using h
      simpa [relayRun, relayStep, stdinBytes_cons] using ih _ hes
    | outData b =>
      have hes : noStdinData es = true := by simpa [noStdinData] using h
      simpa [relayRun, relayStep, stdinBytes_cons] using ih _ hes
    | outEof => simp [relayRun, relayStep, stdinBytes_cons]
    | errData b =>
      have hes : noStdinData es = true := by simpa [noStdinData] using h
      simpa [relayRun, relayStep, stdinBytes_cons] using ih _ hes
    | errEof =>
      have hes : noStdinData es = true := by simpa [noStdinData] using h
      simpa [relayRun, relayStep, stdinBytes_cons] using ih _ hes
    | childExited => simp [relayRun, relayStep, stdinBytes_cons]
    | selectError => simp [relayRun, relayStep, stdinBytes_cons]

/-- While the child's stdin write-end is open and the own-stdin stream is
physically well-formed, everything written to the child's stdin is exactly
the concatenation of the own-stdin chunks the loop consumed. -/
theorem relayRun_toChild_eq :
    ∀ (evs : List RelayEv) (s : RelayState), stdinWf evs = true →
      s.stdinOpen = true →
      (relayRun s evs).1.toChild = s.toChild ++ stdinBytes (relayRun s evs).2 := by
  intro evs
  induction evs with
  | nil => intro s _ _; simp [relayRun]
  | cons e es ih =>
    intro s hwf hopen
    cases e with
    | stdinData b =>
      have hwf' : stdinWf es = true := by simpa [stdinWf] using hwf
      have h' := ih { s with
        toChild := s.toChild ++ (if s.stdinOpen then b else []) } hwf'
        (by simp [hopen])
      simp [hopen] at h'
      simpa [relayRun, relayStep, hopen, stdinBytes_cons] using h'
    | stdinEof =>
      have hnd : noStdinData es = true := by simpa [stdinWf] using hwf
      have hfr := (relayRun_closed_frame es (afterEofState s)
        (by simp [afterEofState])).1
      have hsb := relayRun_stdinBytes_of_noData es (afterEofState s) hnd
      simp [afterEofState] at hfr hsb
      simpa [relayRun, relayStep_stdinEof, afterEofState, stdinBytes_cons,
        hsb] using hfr
    | outData b =>
      have hwf' : stdinWf es = true := by simpa [stdinWf] using hwf
      have h' := ih { s with toOut := s.toOut ++ b } hwf' (by simp [hopen])
      simpa [relayRun, relayStep, stdinBytes_cons] using h'
    | outEof => simp [relayRun, relayStep, stdinBytes_cons]
    | errData b =>
      have hwf' : stdinWf es = true := by simpa [stdinWf] using hwf
      have h' := ih { s with toErr := s.toErr ++ b } hwf' (by simp [hopen])
      simpa [relayRun, relayStep, stdinBytes_cons] using h'
    | errEof =>
      have hwf' : stdinWf es = true := by simpa [stdinWf] using hwf
      have h' := ih s hwf' hopen
      simpa [relayRun, relayStep, stdinBytes_cons] using h'
    | childExited => simp [relayRun, relayStep, stdinBytes_cons]
    | selectError => simp [relayRun, relayStep, stdinBytes_cons]

/-- Everything written to the launcher's own stdout is exactly the
concatenation of the child-stdout chunks the loop consumed. -/
theorem relayRun_toOut_eq :
    ∀ (evs : List RelayEv) (s : RelayState),
      (relayRun s evs).1.toOut = s.toOut ++ outBytes (relayRun s evs).2 := by
  intro evs
  induction evs with
  | nil => intro s; simp [relayRun]
  | cons e es ih =>
    intro s
    cases e with
    | stdinData b =>
      have h' := ih { s with
        toChild := s.toChild ++ (if s.stdinOpen then b else []) }
      simpa [relayRun, relayStep, outBytes_cons] using h'
    | stdinEof =>
      have h' := ih (afterEofState s)
      simp [afterEofState] at h'
      simpa [relayRun, relayStep_stdinEof, afterEofState, outBytes_cons] using h'
    | outData b =>
      have h' := ih { s with toOut := s.toOut ++ b }
      simpa [relayRun, relayStep, outBytes_cons] using h'
    | outEof => simp [relayRun, relayStep, outBytes_cons]
    | errData b =>
      have h' := ih { s with toErr := s.toErr ++ b }
      simpa [relayRun, relayStep, outBytes_cons] using h'
    | errEof =>
      simpa [relayRun, relayStep, outBytes_cons] using ih s
    | childExited => simp [relayRun, relayStep, outBytes_cons]
    | selectError => simp [relayRun, relayStep, outBytes_cons]

/-- Starting with the write-end open, the loop closes the child's stdin
write-end exactly once if it consumes an own-stdin EOF, and never
otherwise, no matter how many EOF reports follow the first. -/
theorem relayRun_stdinCloses_eq :
    ∀ (evs : List RelayEv) (s : RelayState), s.stdinOpen = true →
      (relayRun s evs).1.stdinCloses =
        s.stdinCloses +
          (if RelayEv.stdinEof ∈ (relayRun s evs).2 then 1 else 0) := by
  intro evs
  induction evs with
  | nil => intro s _; simp [relayRun]
  | cons e es ih =>
    intro s hopen
    cases e with
    | stdinData b =>
      have h' := ih { s with
        toChild := s.toChild ++ (if s.stdinOpen then b else []) }
        (by simp [hopen])
      simpa [relayRun, relayStep] using h'
    | stdinEof =>
      have hfr := (relayRun_closed_frame es (afterEofState s)
        (by simp [afterEofState])).2.1
      simp [afterEofState, hopen] at hfr
      simpa [relayRun, relayStep_stdinEof, afterEofState, hopen] using hfr
    | outData b =>
      have h' := ih { s with toOut := s.toOut ++ b } (by simp [hopen])
      simpa [relayRun, relayStep] using h'
    | outEof => simp [relayRun, relayStep]
    | errData b =>
      have h' := ih { s with toErr := s.toErr ++ b } (by simp [hopen])
      simpa [relayRun, relayStep] using h'
    | errEof =>
      simpa [relayRun, relayStep] using ih s hopen
    | childExited => simp [relayRun, relayStep]
    | selectError => simp [relayRun, relayStep]

end CiToolLauncher

namespace CiMessageBus

/-- The `CIMessage` record of `ci_message_bus.c` (POSIX-mq backend): raw
bytes of the fixed-size `sender[64]`, `type[32]` and
`content[MAX_MSG_SIZE - 128]` arrays, plus the `int priority` and `time_t
timestamp` fields.  `mq_send`/`mq_receive` copy the whole struct, so a
queue element is exactly one such record. -/
structure CIMessage where
  sender : List Nat
  mtype : List Nat
  priority : Int
  timestamp : Int
  content : List Nat
deriving DecidableEq, Repr

/-- Kernel state of the POSIX message queues: each existing queue name maps
to its buffered elements `(record, mq-priority)` in arrival order.
`mq_maxmsg` is 100 (set in `create_queue`). -/
def MqState := String → Option (List (CIMessage × Nat))

/-- `mq_maxmsg` from `create_queue` (`attr.mq_maxmsg = 100`). -/
def MQ_MAXMSG : Nat := 100

/-- The priority actually passed to `mq_send` (send_message lines 71–73):
`unsigned int prio = msg->priority; if (prio > 31) prio = 31;` — a negative
`int` first wraps to a large unsigned value and is then clamped. -/
def clampPrio (p : Int) : Nat :=
  let u := (p % (2 ^ 32 : Int)).toNat
  if u > 31 then 31 else u

/-- `send_message` (ci_message_bus.c lines 67–79): `open_queue` with no
`O_CREAT` fails with ENOENT when the named queue does not exist (result
`-1`, nothing stored); a full queue makes the `O_NONBLOCK` `mq_send` fail
with EAGAIN (result `-1`); otherwise the whole record is enqueued with the
clamped priority (result `0`). -/
def send_message (st : MqState) (target : String) (msg : CIMessage) :
    MqState × Int :=
  match st target with
  | none => (st, -1)
  | some buf =>
    if MQ_MAXMSG ≤ buf.length then (st, -1)
    else
      (fun n => if n = target then some (buf ++ [(msg, clampPrio msg.priority)])
                else st n,
       0)

/-- `mq_receive` element selection: the oldest message of highest priority. -/
def mqPop (buf : List (CIMessage × Nat)) :
    Option (CIMessage × List (CIMessage × Nat)) :=
  match buf with
  | [] => none
  | _ =>
    let pmax := (buf.map Prod.snd).foldl Nat.max 0
    match buf.span (fun e => e.2 != pmax) with
    | (pre, m :: post) => some (m.1, pre ++ post)
    | (_, []) => none

/-- `receive_message` (lines 82–95) on an open queue: an empty queue makes
the `O_NONBLOCK` `mq_receive` fail with EAGAIN, reported as the distinct
"no message" result `0`; otherwise result `1` with the received record.
(Any other failure would be `-1`; none arises on an open queue in this
model.)  Returns `(result, received record, remaining queue)`. -/
def receive_message (buf : List (CIMessage × Nat)) :
    Int × Option CIMessage × List (CIMessage × Nat) :=
  match mqPop buf with
  | none => (0, none, buf)
  | some (m, rest) => (1, some m, rest)

end CiMessageBus

namespace CiMessageBusUnix

/-- The `CIMessage` record of `ci_message_bus_unix.c`, which adds an
`int content_len` field to the POSIX-mq layout. -/
structure CIMessageU where
  sender : List Nat
  mtype : List Nat
  priority : Int
  timestamp : Int
  contentLen : Int
  content : List Nat
deriving DecidableEq, Repr

/-- State of the Unix-domain datagram backend: each existing socket path
(per CI name) maps to its pending datagrams in arrival order. -/
def UnixState := String → Option (List CIMessageU)

/-- `send_message_to_ci` (ci_message_bus_unix.c lines 81–108): if the
target's socket path does not exist (`access(...) != 0`) the send fails
with result `-1` and nothing is buffered; otherwise the whole record is
sent as one datagram, appended to the receiver's pending queue, result
`0`. -/
def send_message_to_ci (st : UnixState) (target : String) (msg : CIMessageU) :
    UnixState × Int :=
  match st target with
  | none => (st, -1)
  | some q =>
    (fun n => if n = target then some (q ++ [msg]) else st n, 0)

/-- `receive_message_from_socket` (lines 111–122) on the CI's own datagram
socket: an empty queue makes the non-blocking `recv` fail with
EAGAIN/EWOULDBLOCK, reported as the distinct "no message" result `0`;
otherwise result `1` with the oldest pending datagram.  Returns
`(result, received record, remaining queue)`. -/
def receive_message_from_socket (q : List CIMessageU) :
    Int × Option CIMessageU × List CIMessageU :=
  match q with
  | [] => (0, none, [])
  | m :: rest => (1, some m, rest)

end CiMessageBusUnix

namespace CiToolLauncher

/-- The events strictly before the first own-stdin EOF report. -/
def beforeFirstEof : List RelayEv → List RelayEv
  | [] => []
  | RelayEv.stdinEof :: _ => []
  | e :: es => e :: beforeFirstEof es

@[simp]
theorem stdinBytes_eq_nil_of_noData :
    ∀ (evs : List RelayEv), noStdinData evs = true → stdinBytes evs = [] := by
  intro evs
  induction evs with
  | nil => intro _; simp
  | cons e es ih =>
    intro h
    cases e <;> simp [noStdinData] at h <;>
      simp [stdinBytes_cons, ih h]

/-- On a well-formed own-stdin stream, all stdin chunks lie before the first
EOF report. -/
theorem stdinBytes_beforeFirstEof :
    ∀ (evs : List RelayEv), stdinWf evs = true →
      stdinBytes (beforeFirstEof evs) = stdinBytes evs := by
  intro evs
  induction evs with
  | nil => intro _; simp [beforeFirstEof]
  | cons e es ih =>
    intro h
    cases e with
    | stdinEof =>
      have hnd : noStdinData es = true := by simpa [stdinWf] using h
      simp [beforeFirstEof, stdinBytes_cons, stdinBytes_eq_nil_of_noData es hnd]
    | stdinData b =>
      have h' : stdinWf es = true := by simpa [stdinWf] using h
      simp [beforeFirstEof, stdinBytes_cons, ih h']
    | outData b =>
      have h' : stdinWf es = true := by simpa [stdinWf] using h
      simp [beforeFirstEof, stdinBytes_cons, ih h']
    | outEof =>
      have h' : stdinWf es = true := by simpa [stdinWf] using h
      simp [beforeFirstEof, stdinBytes_cons, ih h']
    | errData b =>
      have h' : stdinWf es = true := by simpa [stdinWf] using h
      simp [beforeFirstEof, stdinBytes_cons, ih h']
    | errEof =>
      have h' : stdinWf es = true := by simpa [stdinWf] using h
      simp [beforeFirstEof, stdinBytes_cons, ih h']
    | childExited =>
      have h' : stdinWf es = true := by simpa [stdinWf] using h
      simp [beforeFirstEof, stdinBytes_cons, ih h']
    | selectError =>
      have h' : stdinWf es = true := by simpa [stdinWf] using h
      simp [beforeFirstEof, stdinBytes_cons, ih h']

/-- The events the loop consumes are a prefix of the events offered. -/
theorem relayRun_processed_prefix :
    ∀ (evs : List RelayEv) (s : RelayState), (relayRun s evs).2 <+: evs := by
  intro evs
  induction evs with
  | nil => intro s; simp [relayRun]
  | cons e es ih =>
    intro s
    by_cases hh : (relayStep s e).2 = true
    · have : relayRun s (e :: es) = ((relayStep s e).1, [e]) := by
        simp [relayRun, hh]
      rw [this]
      exact ⟨es, rfl⟩
    · have hh' : (relayStep s e).2 = false := by
        cases hb : (relayStep s e).2
        · rfl
        · exact absurd hb hh
      have : relayRun s (e :: es) =
          ((relayRun (relayStep s e).1 es).1,
            e :: (relayRun (relayStep s e).1 es).2) := by
        simp [relayRun, hh']
      rw [this]
      exact List.cons_prefix_cons.mpr ⟨rfl, ih (relayStep s e).1⟩

theorem noStdinData_of_prefix :
    ∀ (evs l : List RelayEv), noStdinData evs = true → l <+: evs →
      noStdinData l = true := by
  intro evs
  induction evs with
  | nil =>
    intro l _ hp
    obtain rfl := List.prefix_nil.mp hp
    rfl
  | cons e es ih =>
    intro l h hp
    cases l with
    | nil => rfl
    | cons x xs =>
      obtain ⟨hx, hxs⟩ := List.cons_prefix_cons.mp hp
      subst hx
      cases x with
      | stdinData b => simp [noStdinData] at h
      | stdinEof =>
        have hes : noStdinData es = true := by simpa [noStdinData] using h
        simpa [noStdinData] using ih xs hes hxs
      | outData b =>
        have hes : noStdinData es = true := by simpa [noStdinData] using h
        simpa [noStdinData] using ih xs hes hxs
      | outEof =>
        have hes : noStdinData es = true := by simpa [noStdinData] using h
        simpa [noStdinData] using ih xs hes hxs
      | errData b =>
        have hes : noStdinData es = true := by simpa [noStdinData] using h
        simpa [noStdinData] using ih xs hes hxs
      | errEof =>
        have hes : noStdinData es = true := by simpa [noStdinData] using h
        simpa [noStdinData] using ih xs hes hxs
      | childExited =>
        have hes : noStdinData es = true := by simpa [noStdinData] using h
        simpa [noStdinData] using ih xs hes hxs
      | selectError =>
        have hes : noStdinData es = true := by simpa [noStdinData] using h
        simpa [noStdinData] using ih xs hes hxs

/-- Well-formedness of the own-stdin stream is inherited by prefixes. -/
theorem stdinWf_of_prefix :
    ∀ (evs l : List RelayEv), stdinWf evs = true → l <+: evs →
      stdinWf l = true := by
  intro evs
  induction evs with
  | nil =>
    intro l _ hp
    obtain rfl := List.prefix_nil.mp hp
    rfl
  | cons e es ih =>
    intro l h hp
    cases l with
    | nil => rfl
    | cons x xs =>
      obtain ⟨hx, hxs⟩ := List.cons_prefix_cons.mp hp
      subst hx
      cases x with
      | stdinEof =>
        have hnd : noStdinData es = true := by simpa [stdinWf] using h
        simpa [stdinWf] using noStdinData_of_prefix es xs hnd hxs
      | stdinData b =>
        have h' : stdinWf es = true := by simpa [stdinWf] using h
        simpa [stdinWf] using ih xs h' hxs
      | outData b =>
        have h' : stdinWf es = true := by simpa [stdinWf] using h
        simpa [stdinWf] using ih xs h' hxs
      | outEof =>
        have h' : stdinWf es = true := by simpa [stdinWf] using h
        simpa [stdinWf] using ih xs h' hxs
      | errData b =>
        have h' : stdinWf es = true := by simpa [stdinWf] using h
        simpa [stdinWf] using ih xs h' hxs
      | errEof =>
        have h' : stdinWf es = true := by simpa [stdinWf] using h
        simpa [stdinWf] using ih xs h' hxs
      | childExited =>
        have h' : stdinWf es = true := by simpa [stdinWf] using h
        simpa [stdinWf] using ih xs h' hxs
      | selectError =>
        have h' : stdinWf es = true := by simpa [stdinWf] using h
        simpa [stdinWf] using ih xs h' hxs

end CiToolLauncher

namespace CiToolLauncher

/-- C1 (code bug): the claim says the identity/port environment variables
are set in the parent before `fork()`, so the child's initial environment
snapshot contains them.  In the source the `putenv` calls (lines 191–201)
come after `fork()` (line 153): at a concrete socket-mode config with a
tool name, no environment publication precedes the fork in the startup
trace, although both publications do occur (after it) — the child can never
see `TEKTON_CI_TOOL`/`TEKTON_CI_PORT`. -/
theorem c1_env_published_only_after_fork :
    envSetBeforeFork (startupTrace
      { tool_name := some "sophia", executable := "/usr/bin/tool",
        args := [], port := 8100, socket_mode := true }) = []
    ∧ StartEv.setEnvTool "sophia" ∈ startupTrace
        { tool_name := some "sophia", executable := "/usr/bin/tool",
          args := [], port := 8100, socket_mode := true }
    ∧ StartEv.setEnvPort 8100 ∈ startupTrace
        { tool_name := some "sophia", executable := "/usr/bin/tool",
          args := [], port := 8100, socket_mode := true } := by
  decide

/-- C2 (code bug): with the listener accepting on attempt 50 (i.e. after
exactly `k = 49 < 50` refusals) the `connect` succeeds, yet the
post-decrement in `while (retries-- > 0)` has already brought `retries` to
0, so the `if (retries <= 0)` check (line 226) takes the fatal path: the
child is SIGTERMed and the launcher exits 1 instead of proceeding to the
relay loop.  For `k = 48` the launcher does proceed to the relay; and when
no attempt ever succeeds, all 50 attempts are made with a 100 ms sleep
after each, the child is signaled and the launcher exits non-zero — as
claimed. -/
theorem c2_retry_off_by_one :
    socketStart (fun i => i == 49) = (SocketStart.fatal, true, true, 50, 49)
    ∧ (socketStart (fun i => i == 48)).1 = SocketStart.relay
    ∧ socketStart (fun _ => false) = (SocketStart.fatal, false, true, 50, 50) := by
  decide

/-- C3 counterexample: a child terminated by SIGTERM (wait status 15) makes
line 317's `return WEXITSTATUS(status)` produce exit code 0 — not the
synthesized non-zero value the claim requires for signal-terminated
children. -/
theorem c3_signal_termination_exits_zero :
    launcherExitCode (LaunchOutcome.normalWithStatus (signalWaitStatus 15)) =
      some 0 := by
  decide

/-- C3 (amended): the launcher's exit code is the high byte of the wait
status on paths where the final `waitpid` obtains one — the child's own
exit code when it exited normally, but 0 (not a synthesized non-zero value)
when it was terminated by a signal; any startup failure exits 1; teardown
via a received signal exits 0; and on the stdio path where the in-loop
WNOHANG poll already reaped the child, the final `waitpid` fails and the
exit code is unspecified (an uninitialized read). -/
theorem c3_exit_codes :
    (∀ c : Nat, c < 256 →
      launcherExitCode (LaunchOutcome.normalWithStatus (exitWaitStatus c)) =
        some c)
    ∧ (∀ sig : Nat,
      launcherExitCode (LaunchOutcome.normalWithStatus (signalWaitStatus sig)) =
        some 0)
    ∧ launcherExitCode LaunchOutcome.startupFailure = some 1
    ∧ launcherExitCode LaunchOutcome.signalTeardown = some 0
    ∧ launcherExitCode LaunchOutcome.normalAlreadyReaped = none := by
  refine ⟨?_, ?_, rfl, rfl, rfl⟩
  · intro c hc
    simp only [launcherExitCode, wexitstatus, exitWaitStatus, Option.some.injEq]
    omega
  · intro sig
    simp only [launcherExitCode, wexitstatus, signalWaitStatus, Option.some.injEq]
    omega

/-- Witness for the amended C3 statement at concrete inputs. -/
theorem c3_exit_codes_witness :
    launcherExitCode (LaunchOutcome.normalWithStatus (exitWaitStatus 7)) =
      some 7
    ∧ launcherExitCode (LaunchOutcome.normalWithStatus (signalWaitStatus 9)) =
      some 0 :=
  ⟨c3_exit_codes.1 7 (by decide), c3_exit_codes.2.1 9⟩

/-- C4 counterexample: on the connection-timeout exit path (lines 226–230)
the child is created and SIGTERMed but the launcher exits without any
`waitpid`: zero successful reaps, so the child is left unreaped — refuting
"exactly one reap on every exit path". -/
theorem c4_connect_timeout_leaves_child_unreaped :
    successfulReaps ExitPath.connectTimeout = 0
    ∧ childrenCreated ExitPath.connectTimeout = 1
    ∧ TeardownEv.killChild ∈ teardownTrace ExitPath.connectTimeout := by
  decide

/-- C4 (amended): exactly one child is created on every post-fork exit
path, the child is never reaped twice, and exactly one successful reap is
performed on every exit path except the socket-creation-failure and
connection-timeout startup-failure paths, where the launcher exits without
reaping. -/
theorem c4_one_child_one_reap :
    (∀ p : ExitPath, childrenCreated p = 1)
    ∧ (∀ p : ExitPath, successfulReaps p ≤ 1)
    ∧ (∀ p : ExitPath, p ≠ ExitPath.connectTimeout →
        p ≠ ExitPath.socketCreateFailure → successfulReaps p = 1) := by
  decide

/-- Witness for the amended C4 statement at a concrete exit path. -/
theorem c4_one_child_one_reap_witness :
    successfulReaps ExitPath.signalTeardown = 1 :=
  c4_one_child_one_reap.2.2 ExitPath.signalTeardown (by decide) (by decide)

end CiToolLauncher

namespace CiToolLauncher

/-- C5: in stdio-relay mode, over any physically well-formed readiness
stream, the bytes written to the child's stdin are exactly the
concatenation, in order, of the own-stdin chunks the loop consumed before
termination, and the bytes written to the launcher's own stdout are exactly
the concatenation, in order, of the child-stdout chunks consumed — each
direction unmodified. -/
theorem c5_stdio_relay_byte_fidelity (evs : List RelayEv)
    (hwf : stdinWf evs = true) :
    (relayRun relayInit evs).1.toChild = stdinBytes (relayRun relayInit evs).2
    ∧ (relayRun relayInit evs).1.toOut = outBytes (relayRun relayInit evs).2 := by
  constructor
  · simpa [relayInit] using relayRun_toChild_eq evs relayInit hwf rfl
  · simpa [relayInit] using relayRun_toOut_eq evs relayInit

/-- Witness for C5 on a concrete event stream. -/
theorem c5_stdio_relay_byte_fidelity_witness :
    (relayRun relayInit [RelayEv.stdinData [1, 2], RelayEv.outData [3],
        RelayEv.stdinEof, RelayEv.outData [4], RelayEv.outEof]).1.toChild =
      stdinBytes (relayRun relayInit [RelayEv.stdinData [1, 2],
        RelayEv.outData [3], RelayEv.stdinEof, RelayEv.outData [4],
        RelayEv.outEof]).2
    ∧ (relayRun relayInit [RelayEv.stdinData [1, 2], RelayEv.outData [3],
        RelayEv.stdinEof, RelayEv.outData [4], RelayEv.outEof]).1.toOut =
      outBytes (relayRun relayInit [RelayEv.stdinData [1, 2],
        RelayEv.outData [3], RelayEv.stdinEof, RelayEv.outData [4],
        RelayEv.outEof]).2 :=
  c5_stdio_relay_byte_fidelity _ (by decide)

/-- C6: processing an own-stdin EOF never breaks the relay loop; when the
loop consumes such an EOF on a well-formed stream, the child's stdin
write-end is closed exactly once (later EOF reports find `stdin_pipe[1] ==
-1` and close nothing), and everything ever written to the child's stdin
comes from chunks consumed strictly before the first EOF — nothing is
written to it afterwards. -/
theorem c6_stdin_eof_closes_once_without_terminating (evs : List RelayEv)
    (hwf : stdinWf evs = true)
    (hin : RelayEv.stdinEof ∈ (relayRun relayInit evs).2) :
    (∀ s : RelayState, (relayStep s RelayEv.stdinEof).2 = false)
    ∧ (relayRun relayInit evs).1.stdinCloses = 1
    ∧ (relayRun relayInit evs).1.toChild =
        stdinBytes (beforeFirstEof (relayRun relayInit evs).2) := by
  refine ⟨fun s => rfl, ?_, ?_⟩
  · have h := relayRun_stdinCloses_eq evs relayInit rfl
    rw [if_pos hin] at h
    simpa [relayInit] using h
  · have hpr := relayRun_processed_prefix evs relayInit
    have hwfpr : stdinWf (relayRun relayInit evs).2 = true :=
      stdinWf_of_prefix evs _ hwf hpr
    rw [stdinBytes_beforeFirstEof _ hwfpr]
    simpa [relayInit] using relayRun_toChild_eq evs relayInit hwf rfl

/-- Witness for C6 on a concrete event stream containing an own-stdin
EOF. -/
theorem c6_stdin_eof_witness :
    (∀ s : RelayState, (relayStep s RelayEv.stdinEof).2 = false)
    ∧ (relayRun relayInit [RelayEv.stdinData [5], RelayEv.stdinEof,
        RelayEv.stdinEof, RelayEv.errData [7], RelayEv.outEof]).1.stdinCloses = 1
    ∧ (relayRun relayInit [RelayEv.stdinData [5], RelayEv.stdinEof,
        RelayEv.stdinEof, RelayEv.errData [7], RelayEv.outEof]).1.toChild =
      stdinBytes (beforeFirstEof (relayRun relayInit [RelayEv.stdinData [5],
        RelayEv.stdinEof, RelayEv.stdinEof, RelayEv.errData [7],
        RelayEv.outEof]).2) :=
  c6_stdin_eof_closes_once_without_terminating _ (by decide) (by decide)

/-- C7: the stdio relay loop breaks exactly at a child-stdout EOF or at a
positive WNOHANG exit poll — each ends the loop on the very event (the
consumed stream stops there, i.e. within that iteration) — while
child-stderr EOF (and stderr data, stdin events, stdout data) never breaks
it: after a stderr EOF the loop keeps consuming events. -/
theorem c7_termination_conditions :
    ∀ (s : RelayState) (b : List Nat) (es : List RelayEv),
      (relayStep s RelayEv.outEof).2 = true
      ∧ (relayStep s RelayEv.childExited).2 = true
      ∧ relayRun s (RelayEv.outEof :: es) = (s, [RelayEv.outEof])
      ∧ relayRun s (RelayEv.childExited :: es) = (s, [RelayEv.childExited])
      ∧ (relayStep s RelayEv.errEof).2 = false
      ∧ (relayStep s (RelayEv.errData b)).2 = false
      ∧ (relayStep s (RelayEv.stdinData b)).2 = false
      ∧ (relayStep s RelayEv.stdinEof).2 = false
      ∧ (relayStep s (RelayEv.outData b)).2 = false
      ∧ (relayRun s (RelayEv.errEof :: es)).2 =
          RelayEv.errEof :: (relayRun s es).2 := by
  intro s b es
  refine ⟨rfl, rfl, by simp [relayRun, relayStep], by simp [relayRun, relayStep],
    rfl, rfl, rfl, rfl, rfl, by simp [relayRun, relayStep]⟩

end CiToolLauncher

namespace CiToolLauncher

theorem parse_args_fields (argv : List String) (cfg : LaunchConfig)
    (hp : parse_args argv = some cfg) :
    cfg.args = (parseLoop argv {}).args
    ∧ (parseLoop argv {}).executable = some cfg.executable := by
  unfold parse_args at hp
  cases hex : (parseLoop argv {}).executable with
  | none => simp [hex] at hp
  | some exe =>
    simp only [hex] at hp
    cases hp
    exact ⟨rfl, rfl⟩

/-- C8 counterexample: with 64 tokens after `--args`, the scan's
`arg_count < MAX_ARGS - 1` bound keeps only the first 63; the 64th token is
silently dropped from the child's exec vector, refuting "all tokens
following `--args` appear". -/
theorem c8_sixty_fourth_token_dropped :
    (parse_args (["--executable", "/bin/tool", "--args"] ++
        List.replicate 64 "x")).map final_args =
      some (some "/bin/tool" :: List.replicate 63 (some "x") ++ [none])
    ∧ (some (some "/bin/tool" :: List.replicate 63 (some "x") ++ [none]) :
        Option (List (Option String))) ≠
      some (some "/bin/tool" :: List.replicate 64 (some "x") ++ [none]) := by
  constructor
  · rfl
  · decide

/-- C8 (amended): for every command line in which `--args` is not preceded
by an earlier `--args` and not immediately preceded by a value-taking
keyword (`--tool`/`--executable`/`--port`, which would consume it as their
value), if parsing succeeds then the child's exec vector is the configured
executable followed by the first `MAX_ARGS - 1 = 63` tokens after `--args`,
verbatim and in order, with a terminating NULL; tokens beyond the 63rd are
dropped. -/
theorem c8_child_argv (pre post : List String) (cfg : LaunchConfig)
    (hmem : "--args" ∉ pre)
    (hlast : ∀ l, pre.getLast? = some l → takesValue l = false)
    (hp : parse_args (pre ++ "--args" :: post) = some cfg) :
    final_args cfg =
      some cfg.executable :: (post.take (MAX_ARGS - 1)).map some ++ [none] := by
  have hargs :=
    parseLoop_args_of_reached pre.length pre le_rfl hmem hlast post {}
  have hfields := parse_args_fields (pre ++ "--args" :: post) cfg hp
  rw [final_args, hfields.1, hargs]

/-- Witness for the amended C8 statement on a concrete command line. -/
theorem c8_child_argv_witness :
    final_args { tool_name := none, executable := "/bin/t", args := ["a", "b"],
                 port := 0, socket_mode := false } =
      some "/bin/t" :: ((["a", "b"] : List String).take (MAX_ARGS - 1)).map some
        ++ [none] :=
  c8_child_argv ["--executable", "/bin/t"] ["a", "b"]
    { tool_name := none, executable := "/bin/t", args := ["a", "b"],
      port := 0, socket_mode := false }
    (by decide) (by decide) (by decide)

end CiToolLauncher

namespace CiMessageBus

/-- On a one-element queue, `mq_receive` returns that element. -/
theorem mqPop_singleton (m : CIMessage) (p : Nat) :
    mqPop [(m, p)] = some (m, []) := by
  simp [mqPop, List.span, List.span.loop, Nat.zero_max]

end CiMessageBus

/-- C9 counterexample: in both backends, with a different record already
pending in the target queue, send-then-receive returns the older pending
record, not the one just sent — so the claim fails for non-empty queues.
(POSIX backend: queue `"ci"` holds record `A` at mq-priority 10; sending
`B` and receiving yields `A ≠ B`.  Unix backend: datagram FIFO holds `A`;
sending `B` and receiving yields `A ≠ B`.) -/
theorem c9_receive_returns_older_pending_record :
    ((CiMessageBus.receive_message
        (((CiMessageBus.send_message
            (fun n => if n = "ci"
              then some [(⟨[1], [2], 10, 0, [3]⟩, 10)] else none)
            "ci" ⟨[4], [5], 10, 0, [6]⟩).1 "ci").getD [])).2.1 =
      some ⟨[1], [2], 10, 0, [3]⟩
    ∧ (⟨[1], [2], 10, 0, [3]⟩ : CiMessageBus.CIMessage) ≠ ⟨[4], [5], 10, 0, [6]⟩)
    ∧ ((CiMessageBusUnix.receive_message_from_socket
        (((CiMessageBusUnix.send_message_to_ci
            (fun n => if n = "ci" then some [⟨[1], [2], 10, 0, 1, [3]⟩] else none)
            "ci" ⟨[4], [5], 10, 0, 1, [6]⟩).1 "ci").getD [])).2.1 =
      some ⟨[1], [2], 10, 0, 1, [3]⟩
    ∧ (⟨[1], [2], 10, 0, 1, [3]⟩ : CiMessageBusUnix.CIMessageU) ≠
      ⟨[4], [5], 10, 0, 1, [6]⟩) := by
  decide

/-- C9 (amended): in both backends, sending a record to an existing *empty*
queue and then receiving from that queue succeeds and yields a record equal
field-for-field (sender, type, priority, timestamp, payload — the whole
struct is copied) to the one sent; with other records already pending, the
received record is instead the oldest pending one of highest priority
(POSIX) or the oldest datagram (Unix). -/
theorem c9_empty_queue_roundtrip :
    (∀ (st : CiMessageBus.MqState) (name : String) (msg : CiMessageBus.CIMessage),
      st name = some [] →
      (CiMessageBus.send_message st name msg).2 = 0
      ∧ (CiMessageBus.receive_message
          (((CiMessageBus.send_message st name msg).1 name).getD [])).1 = 1
      ∧ (CiMessageBus.receive_message
          (((CiMessageBus.send_message st name msg).1 name).getD [])).2.1 =
        some msg)
    ∧ (∀ (st : CiMessageBusUnix.UnixState) (name : String)
        (msg : CiMessageBusUnix.CIMessageU),
      st name = some [] →
      (CiMessageBusUnix.send_message_to_ci st name msg).2 = 0
      ∧ (CiMessageBusUnix.receive_message_from_socket
          (((CiMessageBusUnix.send_message_to_ci st name msg).1 name).getD [])).1
        = 1
      ∧ (CiMessageBusUnix.receive_message_from_socket
          (((CiMessageBusUnix.send_message_to_ci st name msg).1 name).getD [])).2.1
        = some msg) := by
  constructor
  · intro st name msg h
    refine ⟨?_, ?_, ?_⟩ <;>
      simp [CiMessageBus.send_message, CiMessageBus.receive_message,
        CiMessageBus.mqPop_singleton, CiMessageBus.MQ_MAXMSG, h]
  · intro st name msg h
    refine ⟨?_, ?_, ?_⟩ <;>
      simp [CiMessageBusUnix.send_message_to_ci,
        CiMessageBusUnix.receive_message_from_socket, h]

/-- Witness for the amended C9 statement at a concrete state and record. -/
theorem c9_empty_queue_roundtrip_witness :
    ((CiMessageBus.send_message (fun _ => some []) "q"
        ⟨[9], [8], 7, 6, [5]⟩).2 = 0
    ∧ (CiMessageBus.receive_message
        (((CiMessageBus.send_message (fun _ => some []) "q"
            ⟨[9], [8], 7, 6, [5]⟩).1 "q").getD [])).1 = 1
    ∧ (CiMessageBus.receive_message
        (((CiMessageBus.send_message (fun _ => some []) "q"
            ⟨[9], [8], 7, 6, [5]⟩).1 "q").getD [])).2.1 =
      some ⟨[9], [8], 7, 6, [5]⟩)
    ∧ ((CiMessageBusUnix.send_message_to_ci (fun _ => some []) "q"
        ⟨[9], [8], 7, 6, 1, [5]⟩).2 = 0
    ∧ (CiMessageBusUnix.receive_message_from_socket
        (((CiMessageBusUnix.send_message_to_ci (fun _ => some []) "q"
            ⟨[9], [8], 7, 6, 1, [5]⟩).1 "q").getD [])).1 = 1
    ∧ (CiMessageBusUnix.receive_message_from_socket
        (((CiMessageBusUnix.send_message_to_ci (fun _ => some []) "q"
            ⟨[9], [8], 7, 6, 1, [5]⟩).1 "q").getD [])).2.1 =
      some ⟨[9], [8], 7, 6, 1, [5]⟩) :=
  ⟨c9_empty_queue_roundtrip.1 (fun _ => some []) "q" ⟨[9], [8], 7, 6, [5]⟩ rfl,
   c9_empty_queue_roundtrip.2 (fun _ => some []) "q" ⟨[9], [8], 7, 6, 1, [5]⟩ rfl⟩

/-- C10: in both backends a send to a non-existent queue name is a delivery
error (`-1`) that buffers nothing (the state is unchanged), while a receive
on an existing but empty queue is the distinct normal "no message" result
`0` — not the error result `-1` — returned immediately (the receive
functions are total and non-blocking by construction). -/
theorem c10_send_error_receive_empty :
    (∀ (st : CiMessageBus.MqState) (name : String) (msg : CiMessageBus.CIMessage),
      st name = none →
      CiMessageBus.send_message st name msg = (st, -1))
    ∧ CiMessageBus.receive_message [] = (0, none, [])
    ∧ (∀ (st : CiMessageBusUnix.UnixState) (name : String)
        (msg : CiMessageBusUnix.CIMessageU),
      st name = none →
      CiMessageBusUnix.send_message_to_ci st name msg = (st, -1))
    ∧ CiMessageBusUnix.receive_message_from_socket [] = (0, none, [])
    ∧ (0 : Int) ≠ -1 := by
  refine ⟨?_, rfl, ?_, rfl, by decide⟩
  · intro st name msg h
    simp [CiMessageBus.send_message, h]
  · intro st name msg h
    simp [CiMessageBusUnix.send_message_to_ci, h]

/-- Witness for C10 at a concrete state and record. -/
theorem c10_send_error_receive_empty_witness :
    CiMessageBus.send_message (fun _ => none) "ghost" ⟨[], [], 0, 0, []⟩ =
      ((fun _ => none), -1)
    ∧ CiMessageBusUnix.send_message_to_ci (fun _ => none) "ghost"
        ⟨[], [], 0, 0, 0, []⟩ = ((fun _ => none), -1) :=
  ⟨c10_send_error_receive_empty.1 (fun _ => none) "ghost" ⟨[], [], 0, 0, []⟩ rfl,
   c10_send_error_receive_empty.2.2.1 (fun _ => none) "ghost"
     ⟨[], [], 0, 0, 0, []⟩ rfl⟩
